import Mathlib

/-!
Verification of the ABEL model reconciliation engine
(`tools/abel/model/model_helper.py` of onboard-data/digitalbuildings).

The data-model containers (`FieldTranslation`, `Connection`, the entity
variants, `EntityOperation`, `Model`) live outside the analysed source and
are modelled from the specification's data-model contracts; the five
operations (`_GetLinkScore`, the two update-mask calculators,
`DetermineEntityOperations`, `ReconcileOperations`) are translated directly
from the source.
-/

namespace DigitalBuildings

/-- Modelled from the spec: `FieldTranslation` (from the external `validate`
package) is an equality-comparable, hashable value describing one field
mapping, e.g. a point name, an increment and an optionality flag; two field
translations are equal iff all their defining attributes match. -/
structure FieldTranslation where
  std_field_name : String
  raw_field_name : String
  increment : String
  is_optional : Bool
deriving DecidableEq, Repr

/-- Modelled from the spec: a connection is an equality-comparable reference
to another entity expressing a physical/logical relation. -/
structure Connection where
  source_bc_guid : String
  connection_type : String
deriving DecidableEq, Repr

/-- Modelled from the spec: a `VirtualEntity` has the shared entity
attributes (`bc_guid`, `code`, `type_name`, `connections`) plus `links`,
a collection of field-translation descriptors. -/
structure VirtualEntity where
  bc_guid : String
  code : String
  type_name : String
  connections : List Connection
  links : List FieldTranslation
deriving DecidableEq, Repr

/-- Modelled from the spec: a `ReportingEntity` has the shared entity
attributes plus `translations`, a collection of field-translation
descriptors. -/
structure ReportingEntity where
  bc_guid : String
  code : String
  type_name : String
  connections : List Connection
  translations : List FieldTranslation
deriving DecidableEq, Repr

/-- Modelled from the spec: an entity is exactly one of the two mutually
exclusive variants. -/
inductive Entity where
  | virtual (e : VirtualEntity)
  | reporting (e : ReportingEntity)
deriving DecidableEq, Repr

/-- The `bc_guid` attribute shared by both variants. -/
def Entity.bc_guid : Entity → String
  | .virtual e => e.bc_guid
  | .reporting e => e.bc_guid

/-- The `code` attribute shared by both variants. -/
def Entity.code : Entity → String
  | .virtual e => e.code
  | .reporting e => e.code

/-- The `type_name` attribute shared by both variants. -/
def Entity.type_name : Entity → String
  | .virtual e => e.type_name
  | .reporting e => e.type_name

/-- The `connections` attribute shared by both variants. -/
def Entity.connections : Entity → List Connection
  | .virtual e => e.connections
  | .reporting e => e.connections

/-- Modelled from the spec: `EntityOperationType = {ADD, UPDATE, DELETE,
EXPORT}` (from the external `entity_enumerations` module). -/
inductive EntityOperationType where
  | ADD
  | UPDATE
  | DELETE
  | EXPORT
deriving DecidableEq, Repr

/-- Modelled from the spec: `EntityUpdateMaskAttribute = {CODE, TYPE,
CONNECTIONS, TRANSLATION, LINKS}` (from the external `entity_enumerations`
module). -/
inductive EntityUpdateMaskAttribute where
  | CODE
  | TYPE
  | CONNECTIONS
  | TRANSLATION
  | LINKS
deriving DecidableEq, Repr

/-- Modelled from the spec: an `EntityOperation` is an immutable record
pairing an entity (the updated-side instance) with an operation tag and,
for UPDATE, an update mask; operations built without a mask carry `none`. -/
structure EntityOperation where
  entity : Entity
  operation : EntityOperationType
  update_mask : Option (List EntityUpdateMaskAttribute) := none
deriving DecidableEq, Repr

/-- Modelled from the spec: a `Model` is a collection of entities for one
snapshot, exposing an iterable of entities. -/
structure Model where
  entities : List Entity
deriving DecidableEq, Repr

/-- Modelled from the spec: guid-keyed lookup on a model, returning the
entity with the given `bc_guid` or not-found; within a single graph
`bc_guid` is unique, so first-match lookup is the lookup. -/
def Model.GetEntity (m : Model) (guid : String) : Option Entity :=
  m.entities.find? (fun e => e.bc_guid = guid)

/-- Translation of `_GetLinkScore`: dedup both lists into sets and return
`|updated ∩ current| / |current|`; with an empty current link set the
division by zero is a raised error (`ZeroDivisionError` in the source). -/
def _GetLinkScore (current_links updated_links : List FieldTranslation) :
    Except String ℚ :=
  let current_link_set := current_links.toFinset
  let updated_link_set := updated_links.toFinset
  if current_link_set.card = 0 then
    Except.error "ZeroDivisionError"
  else
    Except.ok (((updated_link_set ∩ current_link_set).card : ℚ) /
      (current_link_set.card : ℚ))

/-- Translation of `DetermineReportingEntityUpdateMask`: appends CODE, TYPE,
CONNECTIONS, TRANSLATION in source order under the source's conditions.
The source's ad hoc debug printing gated on `code == 'VAV-3'` only writes
to stdout and does not affect the returned mask, so it has no counterpart
here. -/
def DetermineReportingEntityUpdateMask
    (current_entity updated_entity : ReportingEntity) :
    List EntityUpdateMaskAttribute :=
  (if updated_entity.code ≠ current_entity.code then
    [EntityUpdateMaskAttribute.CODE] else []) ++
  (if updated_entity.type_name ≠ current_entity.type_name then
    [EntityUpdateMaskAttribute.TYPE] else []) ++
  (if updated_entity.connections.toFinset \ current_entity.connections.toFinset ≠ ∅ then
    [EntityUpdateMaskAttribute.CONNECTIONS] else []) ++
  (if updated_entity.translations.toFinset ∩ current_entity.translations.toFinset ≠
      current_entity.translations.toFinset then
    [EntityUpdateMaskAttribute.TRANSLATION] else [])

/-- The first three appends of `DetermineVirtualEntityUpdateMask` (CODE,
TYPE, CONNECTIONS), factored out: they involve no link score and cannot
raise. -/
def virtualEntityBaseMask
    (current_entity updated_entity : VirtualEntity) :
    List EntityUpdateMaskAttribute :=
  (if updated_entity.code ≠ current_entity.code then
    [EntityUpdateMaskAttribute.CODE] else []) ++
  (if updated_entity.type_name ≠ current_entity.type_name then
    [EntityUpdateMaskAttribute.TYPE] else []) ++
  (if updated_entity.connections.toFinset \ current_entity.connections.toFinset ≠ ∅ then
    [EntityUpdateMaskAttribute.CONNECTIONS] else [])

/-- Translation of `DetermineVirtualEntityUpdateMask`: appends CODE, TYPE,
CONNECTIONS under the source's conditions, then LINKS iff both link lists
are truthy (non-empty) and the link score is strictly below 0.9; the
score — and with it a possible division-by-zero error — is only computed
when both lists are non-empty, mirroring the source's short-circuit
conjunction. -/
def DetermineVirtualEntityUpdateMask
    (current_entity updated_entity : VirtualEntity) :
    Except String (List EntityUpdateMaskAttribute) :=
  if current_entity.links ≠ [] ∧ updated_entity.links ≠ [] then
    match _GetLinkScore current_entity.links updated_entity.links with
    | Except.error e => Except.error e
    | Except.ok link_score =>
        Except.ok (virtualEntityBaseMask current_entity updated_entity ++
          (if link_score < 9/10 then [EntityUpdateMaskAttribute.LINKS] else []))
  else
    Except.ok (virtualEntityBaseMask current_entity updated_entity)

/-- The error message raised by `DetermineEntityOperations` when a guid maps
to entities of different variants (the source's `TypeError`). -/
def variantConflictMessage (guid : String) : String :=
  "GUID: " ++ guid ++ " Maps to both a reporting entity and a virtual entity."

/-- Translation of one iteration of the `DetermineEntityOperations` loop
body for an updated-model entity: an ADD operation (and `continue`) when
the guid is absent from the current model's guid set, otherwise the
variant dispatch on the fetched current-model entity — the virtual or
reporting mask calculator when the variants agree, appending an UPDATE
operation exactly when the mask is truthy (non-empty), and the
variant-conflict `TypeError` otherwise. -/
def entityOperationsFor (current_model : Model) (importEntity : Entity) :
    Except String (List EntityOperation) :=
  if importEntity.bc_guid ∉ current_model.entities.map Entity.bc_guid then
    Except.ok [⟨importEntity, EntityOperationType.ADD, none⟩]
  else
    match current_model.GetEntity importEntity.bc_guid, importEntity with
    | some (Entity.virtual exportEntity), Entity.virtual ie =>
        (match DetermineVirtualEntityUpdateMask exportEntity ie with
        | Except.error msg => Except.error msg
        | Except.ok update_mask =>
            Except.ok (if update_mask ≠ [] then
              [⟨importEntity, EntityOperationType.UPDATE, some update_mask⟩]
              else []))
    | some (Entity.reporting exportEntity), Entity.reporting ie =>
        Except.ok (if DetermineReportingEntityUpdateMask exportEntity ie ≠ [] then
          [⟨importEntity, EntityOperationType.UPDATE,
            some (DetermineReportingEntityUpdateMask exportEntity ie)⟩] else [])
    | _, _ => Except.error (variantConflictMessage importEntity.bc_guid)

/-- The `DetermineEntityOperations` loop: iterate over the updated model's
entities in order, accumulating each iteration's appended operations; a
raised error aborts the whole comparison with no partial result, and
errors raised at an earlier entity win. -/
def determineEntityOperationsAux (current_model : Model) :
    List Entity → Except String (List EntityOperation)
  | [] => Except.ok []
  | importEntity :: rest =>
    match entityOperationsFor current_model importEntity with
    | Except.error msg => Except.error msg
    | Except.ok hops =>
      match determineEntityOperationsAux current_model rest with
      | Except.error msg => Except.error msg
      | Except.ok ops => Except.ok (hops ++ ops)

/-- Translation of `DetermineEntityOperations`: walk the updated model's
entities against the current model. -/
def DetermineEntityOperations (current_model updated_model : Model) :
    Except String (List EntityOperation) :=
  determineEntityOperationsAux current_model updated_model.entities

/-- The source's `generated_operation_map` dict comprehension keyed on
`entity.bc_guid` followed by `.get`: for duplicate guids the last
generated operation wins, and a missing key yields `none`. -/
def generatedOperationGet (generated_operations : List EntityOperation)
    (guid : String) : Option EntityOperation :=
  generated_operations.reverse.find? (fun op => op.entity.bc_guid = guid)

/-- Translation of `ReconcileOperations`: one output per manual operation,
in order; keep the manual operation when no generated operation shares its
guid or when the manual tag is DELETE, otherwise take the generated
operation (the source's EXPORT branch and its final else both return the
generated operation). -/
def ReconcileOperations
    (model_operations generated_operations : List EntityOperation) :
    List EntityOperation :=
  model_operations.map (fun model_operation =>
    match generatedOperationGet generated_operations
        model_operation.entity.bc_guid with
    | none => model_operation
    | some generated_operation =>
      if model_operation.operation = EntityOperationType.DELETE then
        model_operation
      else if model_operation.operation = EntityOperationType.EXPORT ∧
          generated_operation.operation ≠ EntityOperationType.EXPORT then
        generated_operation
      else
        generated_operation)

/-! ### Concrete example data (used to instantiate the theorems below) -/

def L1 : FieldTranslation := ⟨"zone_air_temperature_sensor", "ZTS", "", false⟩

def L2 : FieldTranslation := ⟨"supply_air_flowrate_sensor", "SAF", "", false⟩

def L3 : FieldTranslation := ⟨"discharge_fan_run_command", "DFC", "", false⟩

def L4 : FieldTranslation := ⟨"return_air_temperature_sensor", "RTS", "", false⟩

def connA : Connection := ⟨"GUID-A", "FEEDS"⟩

def repBase : ReportingEntity := ⟨"REP-1", "AHU-1", "AHU", [], [L1]⟩

def repConnAdd : ReportingEntity := ⟨"REP-1", "AHU-1", "AHU", [connA], [L1]⟩

def repLoss : ReportingEntity := ⟨"REP-1", "AHU-1", "AHU", [], []⟩

def virNoLinks : VirtualEntity := ⟨"VIR-1", "VAV-1", "VAV", [], []⟩

def virLinked : VirtualEntity := ⟨"VIR-2", "VAV-2", "VAV", [], [L1, L2, L3]⟩

def conflictVirtual : VirtualEntity := ⟨"X-1", "FAN-1", "FAN", [], []⟩

def conflictReporting : ReportingEntity := ⟨"X-1", "FAN-1", "FAN", [], []⟩

/-! ### Lemmas about the link scorer and the mask calculators -/

lemma GetLinkScore_eq (current_links updated_links : List FieldTranslation)
    (h : current_links ≠ []) :
    _GetLinkScore current_links updated_links =
      Except.ok (((updated_links.toFinset ∩ current_links.toFinset).card : ℚ) /
        (current_links.toFinset.card : ℚ)) := by
  have hcard : ¬ current_links.toFinset.card = 0 := by
    simpa [Finset.card_eq_zero, List.toFinset_eq_empty_iff] using h
  simp only [_GetLinkScore]
  rw [if_neg hcard]

lemma GetLinkScore_bounds (current_links updated_links : List FieldTranslation)
    (s : ℚ) (h : _GetLinkScore current_links updated_links = Except.ok s) :
    0 ≤ s ∧ s ≤ 1 := by
  by_cases hc : current_links = []
  · exfalso
    simp only [_GetLinkScore] at h
    rw [if_pos (by simp [hc])] at h
    exact Except.noConfusion h
  · rw [GetLinkScore_eq current_links updated_links hc] at h
    injection h with h
    subst h
    have hcard : ¬ current_links.toFinset.card = 0 := by
      simpa [Finset.card_eq_zero, List.toFinset_eq_empty_iff] using hc
    have hpos : (0 : ℚ) < (current_links.toFinset.card : ℚ) := by
      exact_mod_cast Nat.pos_of_ne_zero hcard
    constructor
    · positivity
    · rw [div_le_one hpos]
      exact_mod_cast Finset.card_le_card Finset.inter_subset_right

lemma GetLinkScore_ne_error (current_links updated_links : List FieldTranslation)
    (h : current_links ≠ []) (msg : String) :
    _GetLinkScore current_links updated_links ≠ Except.error msg := by
  rw [GetLinkScore_eq current_links updated_links h]
  simp

lemma mem_ite_singleton {α : Type} (a x : α) (c : Prop) [Decidable c] :
    a ∈ (if c then [x] else ([] : List α)) ↔ a = x ∧ c := by
  split_ifs with h <;> simp_all

lemma DVEUM_ok (current_entity updated_entity : VirtualEntity) :
    ∃ m, DetermineVirtualEntityUpdateMask current_entity updated_entity =
      Except.ok m := by
  unfold DetermineVirtualEntityUpdateMask
  by_cases hg : current_entity.links ≠ [] ∧ updated_entity.links ≠ []
  · rw [if_pos hg, GetLinkScore_eq current_entity.links updated_entity.links hg.1]
    exact ⟨_, rfl⟩
  · rw [if_neg hg]
    exact ⟨_, rfl⟩

lemma DVEUM_ne_error (current_entity updated_entity : VirtualEntity)
    (msg : String) :
    DetermineVirtualEntityUpdateMask current_entity updated_entity ≠
      Except.error msg := by
  obtain ⟨m, hm⟩ := DVEUM_ok current_entity updated_entity
  simp [hm]

lemma mem_DREUM_iff (current_entity updated_entity : ReportingEntity)
    (a : EntityUpdateMaskAttribute) :
    a ∈ DetermineReportingEntityUpdateMask current_entity updated_entity ↔
      (a = .CODE ∧ updated_entity.code ≠ current_entity.code) ∨
      (a = .TYPE ∧ updated_entity.type_name ≠ current_entity.type_name) ∨
      (a = .CONNECTIONS ∧
        updated_entity.connections.toFinset \ current_entity.connections.toFinset ≠ ∅) ∨
      (a = .TRANSLATION ∧
        updated_entity.translations.toFinset ∩ current_entity.translations.toFinset ≠
          current_entity.translations.toFinset) := by
  unfold DetermineReportingEntityUpdateMask
  simp only [List.mem_append, mem_ite_singleton]
  tauto

lemma mem_virtualEntityBaseMask_iff
    (current_entity updated_entity : VirtualEntity)
    (a : EntityUpdateMaskAttribute) :
    a ∈ virtualEntityBaseMask current_entity updated_entity ↔
      (a = .CODE ∧ updated_entity.code ≠ current_entity.code) ∨
      (a = .TYPE ∧ updated_entity.type_name ≠ current_entity.type_name) ∨
      (a = .CONNECTIONS ∧
        updated_entity.connections.toFinset \ current_entity.connections.toFinset ≠ ∅) := by
  unfold virtualEntityBaseMask
  simp only [List.mem_append, mem_ite_singleton]
  tauto

lemma mem_DVEUM_iff (current_entity updated_entity : VirtualEntity)
    (m : List EntityUpdateMaskAttribute)
    (hm : DetermineVirtualEntityUpdateMask current_entity updated_entity =
      Except.ok m)
    (a : EntityUpdateMaskAttribute) :
    a ∈ m ↔
      (a = .CODE ∧ updated_entity.code ≠ current_entity.code) ∨
      (a = .TYPE ∧ updated_entity.type_name ≠ current_entity.type_name) ∨
      (a = .CONNECTIONS ∧
        updated_entity.connections.toFinset \ current_entity.connections.toFinset ≠ ∅) ∨
      (a = .LINKS ∧ current_entity.links ≠ [] ∧ updated_entity.links ≠ [] ∧
        ∃ s, _GetLinkScore current_entity.links updated_entity.links =
          Except.ok s ∧ s < 9/10) := by
  unfold DetermineVirtualEntityUpdateMask at hm
  by_cases hg : current_entity.links ≠ [] ∧ updated_entity.links ≠ []
  · rw [if_pos hg,
      GetLinkScore_eq current_entity.links updated_entity.links hg.1] at hm
    simp only [Except.ok.injEq] at hm
    subst hm
    rw [List.mem_append, mem_virtualEntityBaseMask_iff, mem_ite_singleton]
    constructor
    · rintro (h | ⟨rfl, hlt⟩)
      · tauto
      · exact Or.inr (Or.inr (Or.inr
          ⟨rfl, hg.1, hg.2, _, GetLinkScore_eq _ _ hg.1, hlt⟩))
    · rintro (h | h | h | ⟨rfl, h1, h2, s, hs, hlt⟩)
      · tauto
      · tauto
      · tauto
      · refine Or.inr ⟨rfl, ?_⟩
        rw [GetLinkScore_eq current_entity.links updated_entity.links h1] at hs
        simp only [Except.ok.injEq] at hs
        rwa [hs]
  · rw [if_neg hg] at hm
    simp only [Except.ok.injEq] at hm
    subst hm
    rw [mem_virtualEntityBaseMask_iff]
    constructor
    · tauto
    · rintro (h | h | h | ⟨rfl, h1, h2, s, hs, hlt⟩)
      · tauto
      · tauto
      · tauto
      · exact absurd ⟨h1, h2⟩ hg

lemma DREUM_empty (current_entity updated_entity : ReportingEntity)
    (h1 : updated_entity.code = current_entity.code)
    (h2 : updated_entity.type_name = current_entity.type_name)
    (h3 : updated_entity.connections.toFinset ⊆ current_entity.connections.toFinset)
    (h4 : current_entity.translations.toFinset ⊆ updated_entity.translations.toFinset) :
    DetermineReportingEntityUpdateMask current_entity updated_entity = [] := by
  unfold DetermineReportingEntityUpdateMask
  rw [if_neg (by simp [h1]), if_neg (by simp [h2]),
    if_neg (by simp [Finset.sdiff_eq_empty_iff_subset.mpr h3]),
    if_neg (by simp [Finset.inter_eq_right.mpr h4])]
  rfl

lemma virtualEntityBaseMask_empty (current_entity updated_entity : VirtualEntity)
    (h1 : updated_entity.code = current_entity.code)
    (h2 : updated_entity.type_name = current_entity.type_name)
    (h3 : updated_entity.connections.toFinset ⊆ current_entity.connections.toFinset) :
    virtualEntityBaseMask current_entity updated_entity = [] := by
  unfold virtualEntityBaseMask
  rw [if_neg (by simp [h1]), if_neg (by simp [h2]),
    if_neg (by simp [Finset.sdiff_eq_empty_iff_subset.mpr h3])]
  rfl

lemma DVEUM_empty (current_entity updated_entity : VirtualEntity)
    (h1 : updated_entity.code = current_entity.code)
    (h2 : updated_entity.type_name = current_entity.type_name)
    (h3 : updated_entity.connections.toFinset ⊆ current_entity.connections.toFinset)
    (h4 : (∀ s, _GetLinkScore current_entity.links updated_entity.links =
        Except.ok s → 9/10 ≤ s) ∨
      current_entity.links = [] ∨ updated_entity.links = []) :
    DetermineVirtualEntityUpdateMask current_entity updated_entity =
      Except.ok [] := by
  have hbase := virtualEntityBaseMask_empty current_entity updated_entity h1 h2 h3
  unfold DetermineVirtualEntityUpdateMask
  by_cases hg : current_entity.links ≠ [] ∧ updated_entity.links ≠ []
  · rw [if_pos hg, GetLinkScore_eq current_entity.links updated_entity.links hg.1]
    have hge : (9 : ℚ)/10 ≤
        ((updated_entity.links.toFinset ∩ current_entity.links.toFinset).card : ℚ) /
          (current_entity.links.toFinset.card : ℚ) := by
      rcases h4 with h4 | h4 | h4
      · exact h4 _ (GetLinkScore_eq current_entity.links updated_entity.links hg.1)
      · exact absurd h4 hg.1
      · exact absurd h4 hg.2
    simp [hbase, not_lt.mpr hge]
  · rw [if_neg hg, hbase]

/-! ### Lemmas about the guid lookup -/

lemma GetEntity_mem (m : Model) (guid : String) (e : Entity)
    (h : m.GetEntity guid = some e) :
    e ∈ m.entities ∧ e.bc_guid = guid := by
  unfold Model.GetEntity at h
  refine ⟨List.mem_of_find?_eq_some h, ?_⟩
  simpa using List.find?_some h

lemma guid_mem_iff_GetEntity (m : Model) (guid : String) :
    guid ∈ m.entities.map Entity.bc_guid ↔ ∃ e, m.GetEntity guid = some e := by
  unfold Model.GetEntity
  rw [List.mem_map]
  constructor
  · rintro ⟨e, he, rfl⟩
    have : ∃ x, m.entities.find? (fun a => a.bc_guid = e.bc_guid) = some x := by
      rw [← Option.isSome_iff_exists, List.find?_isSome]
      exact ⟨e, he, by simp⟩
    exact this
  · rintro ⟨e, he⟩
    exact ⟨e, List.mem_of_find?_eq_some he, by simpa using List.find?_some he⟩

/-! ### Lemmas about the operation differ loop -/

lemma aux_nil (current_model : Model) :
    determineEntityOperationsAux current_model [] = Except.ok [] := rfl

lemma entityOperationsFor_entity (current_model : Model) (e : Entity)
    (hops : List EntityOperation)
    (h : entityOperationsFor current_model e = Except.ok hops) :
    ∀ op ∈ hops, op.entity = e := by
  unfold entityOperationsFor at h
  by_cases hmem : e.bc_guid ∉ current_model.entities.map Entity.bc_guid
  · rw [if_pos hmem] at h
    simp only [Except.ok.injEq] at h
    subst h
    simp
  · rw [if_neg hmem] at h
    cases hge : current_model.GetEntity e.bc_guid with
    | none => cases e <;> simp [hge] at h
    | some ec =>
      cases ec with
      | virtual ecv =>
        cases e with
        | virtual ev =>
          rw [hge] at h
          simp only at h
          cases hm : DetermineVirtualEntityUpdateMask ecv ev with
          | error msg => rw [hm] at h; simp at h
          | ok mask =>
            rw [hm] at h
            simp only [Except.ok.injEq] at h
            subst h
            intro op hop
            split_ifs at hop with hne
            · simp at hop
              simp [hop]
            · simp at hop
        | reporting er => rw [hge] at h; simp at h
      | reporting ecr =>
        cases e with
        | virtual ev => rw [hge] at h; simp at h
        | reporting er =>
          rw [hge] at h
          simp only [Except.ok.injEq] at h
          subst h
          intro op hop
          split_ifs at hop with hne
          · simp at hop
            simp [hop]
          · simp at hop

lemma aux_cons (current_model : Model) (head : Entity) (tail : List Entity)
    (ops : List EntityOperation) :
    determineEntityOperationsAux current_model (head :: tail) = Except.ok ops ↔
    ∃ hops tops, entityOperationsFor current_model head = Except.ok hops ∧
      determineEntityOperationsAux current_model tail = Except.ok tops ∧
      ops = hops ++ tops := by
  cases hh : entityOperationsFor current_model head with
  | error msg => simp [determineEntityOperationsAux, hh]
  | ok hops =>
    cases hrec : determineEntityOperationsAux current_model tail with
    | error msg => simp [determineEntityOperationsAux, hh, hrec]
    | ok tops =>
      simp only [determineEntityOperationsAux, hh, hrec, Except.ok.injEq]
      constructor
      · rintro rfl
        exact ⟨hops, tops, rfl, rfl, rfl⟩
      · rintro ⟨hops', tops', h1, h2, rfl⟩
        obtain rfl : hops = hops' := by simpa using h1
        obtain rfl : tops = tops' := by simpa using h2
        rfl

lemma aux_cons_error1 (current_model : Model) (head : Entity)
    (tail : List Entity) (msg : String)
    (h : entityOperationsFor current_model head = Except.error msg) :
    determineEntityOperationsAux current_model (head :: tail) =
      Except.error msg := by
  simp [determineEntityOperationsAux, h]

lemma aux_cons_error2 (current_model : Model) (head : Entity)
    (tail : List Entity) (hops : List EntityOperation) (msg : String)
    (h1 : entityOperationsFor current_model head = Except.ok hops)
    (h2 : determineEntityOperationsAux current_model tail = Except.error msg) :
    determineEntityOperationsAux current_model (head :: tail) =
      Except.error msg := by
  simp [determineEntityOperationsAux, h1, h2]

lemma entityOperationsFor_absent (current_model : Model) (e : Entity)
    (h : e.bc_guid ∉ current_model.entities.map Entity.bc_guid) :
    entityOperationsFor current_model e =
      Except.ok [⟨e, EntityOperationType.ADD, none⟩] := by
  unfold entityOperationsFor
  rw [if_pos h]

lemma entityOperationsFor_virtual (current_model : Model)
    (ev ecv : VirtualEntity) (mask : List EntityUpdateMaskAttribute)
    (hget : current_model.GetEntity (Entity.virtual ev).bc_guid =
      some (Entity.virtual ecv))
    (hm : DetermineVirtualEntityUpdateMask ecv ev = Except.ok mask) :
    entityOperationsFor current_model (Entity.virtual ev) =
      Except.ok (if mask ≠ [] then
        [⟨Entity.virtual ev, EntityOperationType.UPDATE, some mask⟩]
        else []) := by
  have hmem : (Entity.virtual ev).bc_guid ∈
      current_model.entities.map Entity.bc_guid :=
    (guid_mem_iff_GetEntity current_model _).mpr ⟨_, hget⟩
  unfold entityOperationsFor
  rw [if_neg (not_not_intro hmem), hget]
  simp only [hm]

lemma entityOperationsFor_reporting (current_model : Model)
    (er ecr : ReportingEntity)
    (hget : current_model.GetEntity (Entity.reporting er).bc_guid =
      some (Entity.reporting ecr)) :
    entityOperationsFor current_model (Entity.reporting er) =
      Except.ok (if DetermineReportingEntityUpdateMask ecr er ≠ [] then
        [⟨Entity.reporting er, EntityOperationType.UPDATE,
          some (DetermineReportingEntityUpdateMask ecr er)⟩]
        else []) := by
  have hmem : (Entity.reporting er).bc_guid ∈
      current_model.entities.map Entity.bc_guid :=
    (guid_mem_iff_GetEntity current_model _).mpr ⟨_, hget⟩
  unfold entityOperationsFor
  rw [if_neg (not_not_intro hmem), hget]

lemma entityOperationsFor_conflict_vr (current_model : Model)
    (ev : VirtualEntity) (ecr : ReportingEntity)
    (hget : current_model.GetEntity (Entity.virtual ev).bc_guid =
      some (Entity.reporting ecr)) :
    entityOperationsFor current_model (Entity.virtual ev) =
      Except.error (variantConflictMessage (Entity.virtual ev).bc_guid) := by
  have hmem : (Entity.virtual ev).bc_guid ∈
      current_model.entities.map Entity.bc_guid :=
    (guid_mem_iff_GetEntity current_model _).mpr ⟨_, hget⟩
  unfold entityOperationsFor
  rw [if_neg (not_not_intro hmem), hget]

lemma entityOperationsFor_conflict_rv (current_model : Model)
    (er : ReportingEntity) (ecv : VirtualEntity)
    (hget : current_model.GetEntity (Entity.reporting er).bc_guid =
      some (Entity.virtual ecv)) :
    entityOperationsFor current_model (Entity.reporting er) =
      Except.error (variantConflictMessage (Entity.reporting er).bc_guid) := by
  have hmem : (Entity.reporting er).bc_guid ∈
      current_model.entities.map Entity.bc_guid :=
    (guid_mem_iff_GetEntity current_model _).mpr ⟨_, hget⟩
  unfold entityOperationsFor
  rw [if_neg (not_not_intro hmem), hget]

lemma entityOperationsFor_error (current_model : Model) (e : Entity)
    (msg : String)
    (h : entityOperationsFor current_model e = Except.error msg) :
    msg = variantConflictMessage e.bc_guid ∧
    ((∃ ev ecr, e = Entity.virtual ev ∧
        current_model.GetEntity e.bc_guid = some (Entity.reporting ecr)) ∨
     (∃ er ecv, e = Entity.reporting er ∧
        current_model.GetEntity e.bc_guid = some (Entity.virtual ecv))) := by
  unfold entityOperationsFor at h
  by_cases hmem : e.bc_guid ∉ current_model.entities.map Entity.bc_guid
  · rw [if_pos hmem] at h
    exact Except.noConfusion h
  · rw [if_neg hmem] at h
    cases hge : current_model.GetEntity e.bc_guid with
    | none =>
      exfalso
      rw [Decidable.not_not] at hmem
      obtain ⟨x, hx⟩ := (guid_mem_iff_GetEntity current_model _).mp hmem
      rw [hge] at hx
      exact Option.noConfusion hx
    | some ec =>
      rw [hge] at h
      cases ec with
      | virtual ecv =>
        cases e with
        | virtual ev =>
          exfalso
          simp only at h
          cases hm : DetermineVirtualEntityUpdateMask ecv ev with
          | error m =>
            exact DVEUM_ne_error ecv ev m hm
          | ok mask =>
            rw [hm] at h
            exact Except.noConfusion h
        | reporting er =>
          simp only at h
          injection h with h
          exact ⟨h.symm, Or.inr ⟨er, ecv, rfl, rfl⟩⟩
      | reporting ecr =>
        cases e with
        | virtual ev =>
          simp only at h
          injection h with h
          exact ⟨h.symm, Or.inl ⟨ev, ecr, rfl, rfl⟩⟩
        | reporting er =>
          simp only at h
          exact Except.noConfusion h

lemma aux_guid_mem (current_model : Model) (es : List Entity)
    (ops : List EntityOperation)
    (h : determineEntityOperationsAux current_model es = Except.ok ops) :
    ∀ op ∈ ops, op.entity.bc_guid ∈ es.map Entity.bc_guid := by
  induction es generalizing ops with
  | nil =>
    rw [aux_nil] at h
    obtain rfl : ops = [] := by simpa using h.symm
    simp
  | cons head tail ih =>
    rw [aux_cons] at h
    obtain ⟨hops, tops, hh, ht, rfl⟩ := h
    intro op hop
    rw [List.map_cons]
    rcases List.mem_append.mp hop with hop | hop
    · have he := entityOperationsFor_entity current_model head hops hh op hop
      rw [he]
      exact List.mem_cons_self _ _
    · exact List.mem_cons_of_mem _ (ih tops ht op hop)

lemma aux_filter (current_model : Model) (es : List Entity) (e : Entity)
    (ops res : List EntityOperation)
    (hmem : e ∈ es) (hnd : (es.map Entity.bc_guid).Nodup)
    (hok : determineEntityOperationsAux current_model es = Except.ok ops)
    (hres : entityOperationsFor current_model e = Except.ok res) :
    ops.filter (fun op => op.entity.bc_guid == e.bc_guid) = res := by
  induction es generalizing ops with
  | nil => simp at hmem
  | cons head tail ih =>
    rw [aux_cons] at hok
    obtain ⟨hops, tops, hh, ht, rfl⟩ := hok
    rw [List.filter_append]
    rw [List.map_cons, List.nodup_cons] at hnd
    rcases List.mem_cons.mp hmem with rfl | hmem'
    · obtain rfl : hops = res := by
        rw [hh] at hres
        simpa using hres
      have htail : tops.filter (fun op => op.entity.bc_guid == e.bc_guid) = [] := by
        rw [List.filter_eq_nil_iff]
        intro op hop
        have hguid := aux_guid_mem current_model tail tops ht op hop
        simp only [beq_iff_eq]
        intro hcontra
        rw [hcontra] at hguid
        exact hnd.1 hguid
      rw [htail, List.append_nil]
      apply List.filter_eq_self.mpr
      intro op hop
      have he := entityOperationsFor_entity current_model e _ hres op hop
      simp [he]
    · have hguid : head.bc_guid ≠ e.bc_guid := by
        intro hcontra
        apply hnd.1
        rw [hcontra]
        exact List.mem_map_of_mem Entity.bc_guid hmem'
      have hhead : hops.filter (fun op => op.entity.bc_guid == e.bc_guid) = [] := by
        rw [List.filter_eq_nil_iff]
        intro op hop
        have he := entityOperationsFor_entity current_model head hops hh op hop
        simp [he, hguid]
      rw [hhead, List.nil_append]
      exact ih tops hmem' hnd.2 ht

lemma aux_error_of_conflict (current_model : Model) (es : List Entity)
    (h : ∃ e ∈ es, ∃ msg, entityOperationsFor current_model e =
      Except.error msg) :
    ∃ e ∈ es, ∃ msg, entityOperationsFor current_model e = Except.error msg ∧
      determineEntityOperationsAux current_model es = Except.error msg := by
  induction es with
  | nil => simp at h
  | cons head tail ih =>
    by_cases hh : ∃ msg, entityOperationsFor current_model head = Except.error msg
    · obtain ⟨msg, hmsg⟩ := hh
      exact ⟨head, List.mem_cons_self _ _, msg, hmsg,
        aux_cons_error1 current_model head tail msg hmsg⟩
    · have hhead : ∃ hops, entityOperationsFor current_model head =
          Except.ok hops := by
        cases hcase : entityOperationsFor current_model head with
        | error m => exact absurd ⟨m, hcase⟩ hh
        | ok l => exact ⟨l, rfl⟩
      obtain ⟨hops, hhead⟩ := hhead
      have htail : ∃ e ∈ tail, ∃ msg, entityOperationsFor current_model e =
          Except.error msg := by
        obtain ⟨e, he, msg, hmsg⟩ := h
        rcases List.mem_cons.mp he with rfl | he'
        · exact absurd ⟨msg, hmsg⟩ hh
        · exact ⟨e, he', msg, hmsg⟩
      obtain ⟨e, he, msg, hmsg, haux⟩ := ih htail
      exact ⟨e, List.mem_cons_of_mem _ he, msg, hmsg,
        aux_cons_error2 current_model head tail hops msg hhead haux⟩

/-! ### Lemmas about the operation reconciler -/

lemma generatedOperationGet_guid (generated_operations : List EntityOperation)
    (guid : String) (g : EntityOperation)
    (h : generatedOperationGet generated_operations guid = some g) :
    g.entity.bc_guid = guid := by
  unfold generatedOperationGet at h
  simpa using List.find?_some h

lemma generatedOperationGet_mem (generated_operations : List EntityOperation)
    (guid : String) (g : EntityOperation)
    (h : generatedOperationGet generated_operations guid = some g) :
    g ∈ generated_operations := by
  unfold generatedOperationGet at h
  exact List.mem_reverse.mp (List.mem_of_find?_eq_some h)

lemma ReconcileOperations_length
    (model_operations generated_operations : List EntityOperation) :
    (ReconcileOperations model_operations generated_operations).length =
      model_operations.length := by
  simp [ReconcileOperations]

lemma GetLinkScore_self (l : List FieldTranslation) (h : l ≠ []) :
    _GetLinkScore l l = Except.ok 1 := by
  rw [GetLinkScore_eq l l h, Finset.inter_self]
  have hcard : (l.toFinset.card : ℚ) ≠ 0 := by
    simpa [Finset.card_eq_zero, List.toFinset_eq_empty_iff] using h
  rw [div_self hcard]

/-! ### Claim theorems -/

/-- C5: for non-empty current links the similarity score is returned (no
error), equals the intersection size over the current-set size, lies in
[0,1]; and the spec's example — current links L1, L2, L3 against updated
links L1, L2, L4 — scores exactly 2/3. -/
theorem GetLinkScore_spec :
    (∀ current_links updated_links : List FieldTranslation,
      current_links ≠ [] →
      ∃ s, _GetLinkScore current_links updated_links = Except.ok s ∧
        s = ((updated_links.toFinset ∩ current_links.toFinset).card : ℚ) /
          (current_links.toFinset.card : ℚ) ∧
        0 ≤ s ∧ s ≤ 1) ∧
    _GetLinkScore [L1, L2, L3] [L1, L2, L4] = Except.ok (2/3) := by
  constructor
  · intro current_links updated_links h
    have hb := GetLinkScore_bounds current_links updated_links _
      (GetLinkScore_eq current_links updated_links h)
    exact ⟨_, GetLinkScore_eq current_links updated_links h, rfl, hb.1, hb.2⟩
  · rfl

/-- C5 witness: the score contract instantiated at the one-element list. -/
theorem GetLinkScore_spec_witness :
    ∃ s, _GetLinkScore [L1] [L1] = Except.ok s ∧
      s = ((([L1] : List FieldTranslation).toFinset ∩
        ([L1] : List FieldTranslation).toFinset).card : ℚ) /
        (([L1] : List FieldTranslation).toFinset.card : ℚ) ∧
      0 ≤ s ∧ s ≤ 1 :=
  GetLinkScore_spec.1 [L1] [L1] (by simp)

/-- C6: for a virtual pair, LINKS is in the mask iff both link lists are
non-empty and the score is strictly below 0.9; with an empty side LINKS is
never flagged, and the mask calculator never surfaces the scorer's
division-by-zero error. -/
theorem DVEUM_links_flag (current_entity updated_entity : VirtualEntity) :
    (∀ mask, DetermineVirtualEntityUpdateMask current_entity updated_entity =
        Except.ok mask →
      (EntityUpdateMaskAttribute.LINKS ∈ mask ↔
        current_entity.links ≠ [] ∧ updated_entity.links ≠ [] ∧
        ∃ s, _GetLinkScore current_entity.links updated_entity.links =
          Except.ok s ∧ s < 9/10)) ∧
    ((current_entity.links = [] ∨ updated_entity.links = []) →
      ∀ mask, DetermineVirtualEntityUpdateMask current_entity updated_entity =
        Except.ok mask → EntityUpdateMaskAttribute.LINKS ∉ mask) ∧
    (∀ msg, DetermineVirtualEntityUpdateMask current_entity updated_entity ≠
      Except.error msg) := by
  refine ⟨?_, ?_, DVEUM_ne_error current_entity updated_entity⟩
  · intro mask hm
    have h := mem_DVEUM_iff current_entity updated_entity mask hm
      EntityUpdateMaskAttribute.LINKS
    simpa using h
  · rintro hempty mask hm hmem
    have h := (mem_DVEUM_iff current_entity updated_entity mask hm
      EntityUpdateMaskAttribute.LINKS).mp hmem
    have h' : current_entity.links ≠ [] ∧ updated_entity.links ≠ [] ∧
        ∃ s, _GetLinkScore current_entity.links updated_entity.links =
          Except.ok s ∧ s < 9/10 := by simpa using h
    rcases hempty with he | he
    · exact h'.1 he
    · exact h'.2.1 he

/-- C6 witness: a virtual pair with empty links on both sides never flags
LINKS. -/
theorem DVEUM_links_flag_witness :
    EntityUpdateMaskAttribute.LINKS ∉ ([] : List EntityUpdateMaskAttribute) :=
  (DVEUM_links_flag virNoLinks virNoLinks).2.1 (Or.inl rfl) [] (by rfl)

/-- C8: for a reporting pair, TRANSLATION is in the mask iff some current
translation is missing from the updated translations; translations present
only in the updated set never by themselves trigger the flag. -/
theorem DREUM_translation_loss
    (current_entity updated_entity : ReportingEntity) :
    EntityUpdateMaskAttribute.TRANSLATION ∈
      DetermineReportingEntityUpdateMask current_entity updated_entity ↔
      ∃ t, t ∈ current_entity.translations ∧
        t ∉ updated_entity.translations := by
  rw [mem_DREUM_iff]
  constructor
  · rintro (⟨h, _⟩ | ⟨h, _⟩ | ⟨h, _⟩ | ⟨_, h⟩)
    · exact EntityUpdateMaskAttribute.noConfusion h
    · exact EntityUpdateMaskAttribute.noConfusion h
    · exact EntityUpdateMaskAttribute.noConfusion h
    · rw [Ne, Finset.inter_eq_right] at h
      obtain ⟨t, ht, hnt⟩ := Finset.not_subset.mp h
      exact ⟨t, List.mem_toFinset.mp ht, fun hc => hnt (List.mem_toFinset.mpr hc)⟩
  · rintro ⟨t, ht, hnt⟩
    refine Or.inr (Or.inr (Or.inr ⟨rfl, ?_⟩))
    rw [Ne, Finset.inter_eq_right]
    exact Finset.not_subset.mpr
      ⟨t, List.mem_toFinset.mpr ht, fun hc => hnt (List.mem_toFinset.mp hc)⟩

/-- C8 witness: losing the only current translation flags TRANSLATION. -/
theorem DREUM_translation_loss_witness :
    EntityUpdateMaskAttribute.TRANSLATION ∈
      DetermineReportingEntityUpdateMask repBase repLoss :=
  (DREUM_translation_loss repBase repLoss).mpr
    ⟨L1, by simp [repBase], by simp [repLoss]⟩

/-- C3: for every manual operation in `model_operations`: if no generated
operation shares its entity's `bc_guid`, `ReconcileOperations` keeps the
manual operation unchanged; else if the manual operation's tag is DELETE it
keeps the manual operation; else (including the EXPORT case and every other
non-DELETE case) it emits the generated operation for that guid, discarding
the manual operation's payload. -/
theorem ReconcileOperations_precedence
    (model_operations generated_operations : List EntityOperation)
    (i : ℕ) (h1 : i < model_operations.length)
    (h2 : i < (ReconcileOperations model_operations generated_operations).length) :
    (ReconcileOperations model_operations generated_operations).get ⟨i, h2⟩ =
      match generatedOperationGet generated_operations
          ((model_operations.get ⟨i, h1⟩).entity.bc_guid) with
      | none => model_operations.get ⟨i, h1⟩
      | some g =>
          if (model_operations.get ⟨i, h1⟩).operation =
              EntityOperationType.DELETE then
            model_operations.get ⟨i, h1⟩
          else g := by
  unfold ReconcileOperations
  simp only [List.get_eq_getElem]
  rw [List.getElem_map]
  cases hl : generatedOperationGet generated_operations
      ((model_operations[i]).entity.bc_guid) with
  | none => simp
  | some g =>
    by_cases hd : (model_operations[i]).operation = EntityOperationType.DELETE <;>
      simp [hd]

/-- C3 witness: DELETE from the manual list survives reconciliation against
a generated UPDATE for the same guid. -/
theorem ReconcileOperations_precedence_witness :
    (ReconcileOperations
      [⟨Entity.reporting repBase, EntityOperationType.DELETE, none⟩]
      [⟨Entity.reporting repConnAdd, EntityOperationType.UPDATE,
        some [EntityUpdateMaskAttribute.CONNECTIONS]⟩]).get
      ⟨0, by simp [ReconcileOperations]⟩ =
      ⟨Entity.reporting repBase, EntityOperationType.DELETE, none⟩ :=
  (ReconcileOperations_precedence
    [⟨Entity.reporting repBase, EntityOperationType.DELETE, none⟩]
    [⟨Entity.reporting repConnAdd, EntityOperationType.UPDATE,
      some [EntityUpdateMaskAttribute.CONNECTIONS]⟩]
    0 (by simp) (by simp [ReconcileOperations])).trans (by rfl)

/-- C4: every operation output by `ReconcileOperations` carries a `bc_guid`
occurring among the entities of `model_operations`; generated operations
with guids absent from the manual list are never emitted. -/
theorem ReconcileOperations_manual_universe
    (model_operations generated_operations : List EntityOperation)
    (op : EntityOperation)
    (h : op ∈ ReconcileOperations model_operations generated_operations) :
    op.entity.bc_guid ∈
      model_operations.map (fun o => o.entity.bc_guid) := by
  unfold ReconcileOperations at h
  obtain ⟨m, hm, rfl⟩ := List.mem_map.mp h
  refine List.mem_map.mpr ⟨m, hm, ?_⟩
  cases hl : generatedOperationGet generated_operations m.entity.bc_guid with
  | none => simp
  | some g =>
    have hg := generatedOperationGet_guid generated_operations _ g hl
    split_ifs <;> simp [hg]

/-- C4 witness: the single output of a reconciliation keeps the manual
list's guid. -/
theorem ReconcileOperations_manual_universe_witness :
    (⟨Entity.reporting repBase, EntityOperationType.EXPORT, none⟩ :
      EntityOperation).entity.bc_guid ∈
      ([⟨Entity.reporting repBase, EntityOperationType.EXPORT, none⟩] :
        List EntityOperation).map (fun o => o.entity.bc_guid) :=
  ReconcileOperations_manual_universe
    [⟨Entity.reporting repBase, EntityOperationType.EXPORT, none⟩] []
    ⟨Entity.reporting repBase, EntityOperationType.EXPORT, none⟩
    (by simp [ReconcileOperations, generatedOperationGet])

/-- C10: the reconciler's output has exactly the length of the manual list,
the i-th output operation concerns the i-th manual operation's guid, and
every output element is one of the input operation instances, unmodified. -/
theorem ReconcileOperations_shape
    (model_operations generated_operations : List EntityOperation) :
    (ReconcileOperations model_operations generated_operations).length =
      model_operations.length ∧
    (∀ i (h1 : i < model_operations.length)
      (h2 : i < (ReconcileOperations model_operations
        generated_operations).length),
      ((ReconcileOperations model_operations generated_operations).get
        ⟨i, h2⟩).entity.bc_guid = (model_operations.get ⟨i, h1⟩).entity.bc_guid) ∧
    (∀ op ∈ ReconcileOperations model_operations generated_operations,
      op ∈ model_operations ∨ op ∈ generated_operations) := by
  refine ⟨ReconcileOperations_length _ _, ?_, ?_⟩
  · intro i h1 h2
    unfold ReconcileOperations
    simp only [List.get_eq_getElem]
    rw [List.getElem_map]
    cases hl : generatedOperationGet generated_operations
        ((model_operations[i]).entity.bc_guid) with
    | none => simp
    | some g =>
      have hg := generatedOperationGet_guid generated_operations _ g hl
      split_ifs <;> simp [hg]
  · intro op hop
    unfold ReconcileOperations at hop
    obtain ⟨m, hm, rfl⟩ := List.mem_map.mp hop
    cases hl : generatedOperationGet generated_operations m.entity.bc_guid with
    | none => exact Or.inl hm
    | some g =>
      have hgm := generatedOperationGet_mem generated_operations _ g hl
      by_cases hd : m.operation = EntityOperationType.DELETE <;>
        by_cases he : m.operation = EntityOperationType.EXPORT ∧
          g.operation ≠ EntityOperationType.EXPORT <;>
        simp [hd, he, hm, hgm]

/-- C10 witness: shape facts instantiated at a concrete pair of lists. -/
theorem ReconcileOperations_shape_witness :
    (ReconcileOperations
      [⟨Entity.reporting repBase, EntityOperationType.ADD, none⟩]
      []).length =
      ([⟨Entity.reporting repBase, EntityOperationType.ADD, none⟩] :
        List EntityOperation).length :=
  (ReconcileOperations_shape
    [⟨Entity.reporting repBase, EntityOperationType.ADD, none⟩] []).1

/-- C1: for every entity of the updated model whose guid is absent from
the current model, a successful run of `DetermineEntityOperations` emits
exactly one operation for that entity: an ADD wrapping the updated-side
entity, with no update mask. -/
theorem DetermineEntityOperations_absent_guid_add
    (current_model updated_model : Model) (e : Entity)
    (ops : List EntityOperation)
    (hnd : (updated_model.entities.map Entity.bc_guid).Nodup)
    (hmem : e ∈ updated_model.entities)
    (habs : e.bc_guid ∉ current_model.entities.map Entity.bc_guid)
    (hok : DetermineEntityOperations current_model updated_model =
      Except.ok ops) :
    ops.filter (fun op => op.entity.bc_guid == e.bc_guid) =
      [⟨e, EntityOperationType.ADD, none⟩] := by
  rw [DetermineEntityOperations] at hok
  exact aux_filter current_model updated_model.entities e ops _ hmem hnd hok
    (entityOperationsFor_absent current_model e habs)

/-- C1 witness: a single new reporting entity against an empty current
model yields exactly its ADD operation. -/
theorem DetermineEntityOperations_absent_guid_add_witness :
    ([⟨Entity.reporting repBase, EntityOperationType.ADD, none⟩] :
      List EntityOperation).filter
      (fun op => op.entity.bc_guid == (Entity.reporting repBase).bc_guid) =
      [⟨Entity.reporting repBase, EntityOperationType.ADD, none⟩] :=
  DetermineEntityOperations_absent_guid_add ⟨[]⟩ ⟨[Entity.reporting repBase]⟩
    (Entity.reporting repBase)
    [⟨Entity.reporting repBase, EntityOperationType.ADD, none⟩]
    (by simp) (by simp) (by simp) (by rfl)

/-- C9: whenever some updated-model entity shares its guid with a
current-model entity of the other variant, `DetermineEntityOperations`
raises an error: the error message is the variant-conflict message naming
the guid of a conflicting entity, and no operation list is returned at
all. -/
theorem DetermineEntityOperations_variant_conflict
    (current_model updated_model : Model) (e_u e_c : Entity)
    (hmem : e_u ∈ updated_model.entities)
    (hget : current_model.GetEntity e_u.bc_guid = some e_c)
    (hconf :
      (∃ ev ecr, e_u = Entity.virtual ev ∧ e_c = Entity.reporting ecr) ∨
      (∃ er ecv, e_u = Entity.reporting er ∧ e_c = Entity.virtual ecv)) :
    ∃ e msg, e ∈ updated_model.entities ∧
      msg = variantConflictMessage e.bc_guid ∧
      ((∃ ev ecr, e = Entity.virtual ev ∧
          current_model.GetEntity e.bc_guid = some (Entity.reporting ecr)) ∨
       (∃ er ecv, e = Entity.reporting er ∧
          current_model.GetEntity e.bc_guid = some (Entity.virtual ecv))) ∧
      DetermineEntityOperations current_model updated_model =
        Except.error msg ∧
      ∀ ops, DetermineEntityOperations current_model updated_model ≠
        Except.ok ops := by
  have hexists : ∃ e ∈ updated_model.entities, ∃ msg,
      entityOperationsFor current_model e = Except.error msg := by
    rcases hconf with ⟨ev, ecr, rfl, heq⟩ | ⟨er, ecv, rfl, heq⟩
    · rw [heq] at hget
      exact ⟨_, hmem, _, entityOperationsFor_conflict_vr current_model ev ecr hget⟩
    · rw [heq] at hget
      exact ⟨_, hmem, _, entityOperationsFor_conflict_rv current_model er ecv hget⟩
  obtain ⟨e, he, msg, hmsg, haux⟩ :=
    aux_error_of_conflict current_model updated_model.entities hexists
  obtain ⟨hmsgeq, hdata⟩ := entityOperationsFor_error current_model e msg hmsg
  have hdeo : DetermineEntityOperations current_model updated_model =
      Except.error msg := by
    rw [DetermineEntityOperations]
    exact haux
  refine ⟨e, msg, he, hmsgeq, hdata, hdeo, ?_⟩
  intro ops hops
  rw [hdeo] at hops
  exact Except.noConfusion hops

/-- C9 witness: a guid mapping to a virtual entity in the current model
and a reporting entity in the updated model aborts the comparison. -/
theorem DetermineEntityOperations_variant_conflict_witness :
    ∃ e msg, e ∈ (Model.mk [Entity.reporting conflictReporting]).entities ∧
      msg = variantConflictMessage e.bc_guid ∧
      ((∃ ev ecr, e = Entity.virtual ev ∧
          (Model.mk [Entity.virtual conflictVirtual]).GetEntity e.bc_guid =
            some (Entity.reporting ecr)) ∨
       (∃ er ecv, e = Entity.reporting er ∧
          (Model.mk [Entity.virtual conflictVirtual]).GetEntity e.bc_guid =
            some (Entity.virtual ecv))) ∧
      DetermineEntityOperations (Model.mk [Entity.virtual conflictVirtual])
        (Model.mk [Entity.reporting conflictReporting]) = Except.error msg ∧
      ∀ ops, DetermineEntityOperations
        (Model.mk [Entity.virtual conflictVirtual])
        (Model.mk [Entity.reporting conflictReporting]) ≠ Except.ok ops :=
  DetermineEntityOperations_variant_conflict
    (Model.mk [Entity.virtual conflictVirtual])
    (Model.mk [Entity.reporting conflictReporting])
    (Entity.reporting conflictReporting) (Entity.virtual conflictVirtual)
    (by simp) (by rfl)
    (Or.inr ⟨conflictReporting, conflictVirtual, rfl, rfl⟩)

/-- C2: for a same-variant pair sharing a guid, if code and type match,
the updated connections add nothing, and (reporting) no current
translation is lost, or (virtual) the score is at least 0.9 or either
side's links are empty, then the computed mask is empty and a successful
run of the differ emits no operation for that entity; conversely a
non-empty mask yields exactly one UPDATE operation wrapping the updated
entity with that mask. -/
theorem DetermineEntityOperations_update_semantics
    (current_model updated_model : Model) (e_c e_u : Entity)
    (mask : List EntityUpdateMaskAttribute)
    (hnd : (updated_model.entities.map Entity.bc_guid).Nodup)
    (hmem : e_u ∈ updated_model.entities)
    (hget : current_model.GetEntity e_u.bc_guid = some e_c)
    (hmask :
      (∃ vc vu, e_c = Entity.virtual vc ∧ e_u = Entity.virtual vu ∧
        DetermineVirtualEntityUpdateMask vc vu = Except.ok mask) ∨
      (∃ rc ru, e_c = Entity.reporting rc ∧ e_u = Entity.reporting ru ∧
        DetermineReportingEntityUpdateMask rc ru = mask)) :
    ((e_u.code = e_c.code ∧ e_u.type_name = e_c.type_name ∧
      e_u.connections.toFinset ⊆ e_c.connections.toFinset ∧
      (∀ rc ru, e_c = Entity.reporting rc → e_u = Entity.reporting ru →
        rc.translations.toFinset ⊆ ru.translations.toFinset) ∧
      (∀ vc vu, e_c = Entity.virtual vc → e_u = Entity.virtual vu →
        (∀ s, _GetLinkScore vc.links vu.links = Except.ok s → 9/10 ≤ s) ∨
        vc.links = [] ∨ vu.links = [])) →
      mask = [] ∧
      ∀ ops, DetermineEntityOperations current_model updated_model =
        Except.ok ops →
        ops.filter (fun op => op.entity.bc_guid == e_u.bc_guid) = []) ∧
    (mask ≠ [] →
      ∀ ops, DetermineEntityOperations current_model updated_model =
        Except.ok ops →
        ops.filter (fun op => op.entity.bc_guid == e_u.bc_guid) =
          [⟨e_u, EntityOperationType.UPDATE, some mask⟩]) := by
  constructor
  · rintro ⟨hcode, htype, hconn, htrans, hlinks⟩
    have hmask0 : mask = [] := by
      rcases hmask with ⟨vc, vu, hec, heu, hm⟩ | ⟨rc, ru, hec, heu, hm⟩
      · subst hec
        subst heu
        have hempty := DVEUM_empty vc vu
          (by simpa [Entity.code] using hcode)
          (by simpa [Entity.type_name] using htype)
          (by simpa [Entity.connections] using hconn)
          (hlinks vc vu rfl rfl)
        rw [hempty] at hm
        simpa using hm.symm
      · subst hec
        subst heu
        have hempty := DREUM_empty rc ru
          (by simpa [Entity.code] using hcode)
          (by simpa [Entity.type_name] using htype)
          (by simpa [Entity.connections] using hconn)
          (htrans rc ru rfl rfl)
        rw [hempty] at hm
        exact hm.symm
    subst hmask0
    refine ⟨rfl, ?_⟩
    intro ops hok
    rw [DetermineEntityOperations] at hok
    have hfor : entityOperationsFor current_model e_u = Except.ok [] := by
      rcases hmask with ⟨vc, vu, hec, heu, hm⟩ | ⟨rc, ru, hec, heu, hm⟩
      · subst hec
        subst heu
        rw [entityOperationsFor_virtual current_model vu vc [] hget hm]
        simp
      · subst hec
        subst heu
        rw [entityOperationsFor_reporting current_model ru rc hget]
        simp [hm]
    exact aux_filter current_model updated_model.entities e_u ops []
      hmem hnd hok hfor
  · intro hne ops hok
    rw [DetermineEntityOperations] at hok
    have hfor : entityOperationsFor current_model e_u =
        Except.ok [⟨e_u, EntityOperationType.UPDATE, some mask⟩] := by
      rcases hmask with ⟨vc, vu, hec, heu, hm⟩ | ⟨rc, ru, hec, heu, hm⟩
      · subst hec
        subst heu
        rw [entityOperationsFor_virtual current_model vu vc mask hget hm]
        simp [hne]
      · subst hec
        subst heu
        rw [entityOperationsFor_reporting current_model ru rc hget]
        rw [hm, if_pos hne]
    exact aux_filter current_model updated_model.entities e_u ops _
      hmem hnd hok hfor

/-- C2 witness: an identical reporting pair yields an empty mask and no
operation. -/
theorem DetermineEntityOperations_update_semantics_witness :
    ([] : List EntityOperation).filter
      (fun op => op.entity.bc_guid == (Entity.reporting repBase).bc_guid) =
      [] :=
  ((DetermineEntityOperations_update_semantics
      ⟨[Entity.reporting repBase]⟩ ⟨[Entity.reporting repBase]⟩
      (Entity.reporting repBase) (Entity.reporting repBase) []
      (by simp) (by simp) (by rfl)
      (Or.inr ⟨repBase, repBase, rfl, rfl, rfl⟩)).1
    ⟨rfl, rfl, Finset.Subset.refl _,
      fun rc ru h1 h2 => by
        injection h1 with h1
        injection h2 with h2
        subst h1
        subst h2
        exact Finset.Subset.refl _,
      fun vc vu h1 h2 => Entity.noConfusion h1⟩).2
    [] (by rfl)

/-- C7: in both mask calculators CONNECTIONS is flagged iff the updated
connection set contains an element absent from the current one; a pair
differing only by removed connections produces no CONNECTIONS flag and no
operation from the differ. -/
theorem connections_additions_only
    (rc ru : ReportingEntity) (vc vu : VirtualEntity) :
    (EntityUpdateMaskAttribute.CONNECTIONS ∈
      DetermineReportingEntityUpdateMask rc ru ↔
      ∃ c, c ∈ ru.connections ∧ c ∉ rc.connections) ∧
    (∀ mask, DetermineVirtualEntityUpdateMask vc vu = Except.ok mask →
      (EntityUpdateMaskAttribute.CONNECTIONS ∈ mask ↔
        ∃ c, c ∈ vu.connections ∧ c ∉ vc.connections)) ∧
    (∀ current_model updated_model conns ops,
      (updated_model.entities.map Entity.bc_guid).Nodup →
      Entity.reporting { rc with connections := conns } ∈
        updated_model.entities →
      current_model.GetEntity rc.bc_guid = some (Entity.reporting rc) →
      conns.toFinset ⊆ rc.connections.toFinset →
      DetermineEntityOperations current_model updated_model = Except.ok ops →
      ops.filter (fun op => op.entity.bc_guid == rc.bc_guid) = []) ∧
    (∀ current_model updated_model conns ops,
      (updated_model.entities.map Entity.bc_guid).Nodup →
      Entity.virtual { vc with connections := conns } ∈
        updated_model.entities →
      current_model.GetEntity vc.bc_guid = some (Entity.virtual vc) →
      conns.toFinset ⊆ vc.connections.toFinset →
      DetermineEntityOperations current_model updated_model = Except.ok ops →
      ops.filter (fun op => op.entity.bc_guid == vc.bc_guid) = []) := by
  refine ⟨?_, ?_, ?_, ?_⟩
  · rw [mem_DREUM_iff]
    constructor
    · rintro (⟨h, _⟩ | ⟨h, _⟩ | ⟨_, h⟩ | ⟨h, _⟩)
      · exact EntityUpdateMaskAttribute.noConfusion h
      · exact EntityUpdateMaskAttribute.noConfusion h
      · obtain ⟨c, hc⟩ := Finset.nonempty_iff_ne_empty.mpr h
        obtain ⟨hin, hout⟩ := Finset.mem_sdiff.mp hc
        exact ⟨c, List.mem_toFinset.mp hin,
          fun hmem => hout (List.mem_toFinset.mpr hmem)⟩
      · exact EntityUpdateMaskAttribute.noConfusion h
    · rintro ⟨c, hin, hout⟩
      refine Or.inr (Or.inr (Or.inl ⟨rfl, ?_⟩))
      exact Finset.nonempty_iff_ne_empty.mp ⟨c, Finset.mem_sdiff.mpr
        ⟨List.mem_toFinset.mpr hin,
          fun hc => hout (List.mem_toFinset.mp hc)⟩⟩
  · intro mask hm
    rw [mem_DVEUM_iff vc vu mask hm]
    constructor
    · rintro (⟨h, _⟩ | ⟨h, _⟩ | ⟨_, h⟩ | ⟨h, _⟩)
      · exact EntityUpdateMaskAttribute.noConfusion h
      · exact EntityUpdateMaskAttribute.noConfusion h
      · obtain ⟨c, hc⟩ := Finset.nonempty_iff_ne_empty.mpr h
        obtain ⟨hin, hout⟩ := Finset.mem_sdiff.mp hc
        exact ⟨c, List.mem_toFinset.mp hin,
          fun hmem => hout (List.mem_toFinset.mpr hmem)⟩
      · exact EntityUpdateMaskAttribute.noConfusion h
    · rintro ⟨c, hin, hout⟩
      refine Or.inr (Or.inr (Or.inl ⟨rfl, ?_⟩))
      exact Finset.nonempty_iff_ne_empty.mp ⟨c, Finset.mem_sdiff.mpr
        ⟨List.mem_toFinset.mpr hin,
          fun hc => hout (List.mem_toFinset.mp hc)⟩⟩
  · intro current_model updated_model conns ops hnd hmem hget hsub hok
    rw [DetermineEntityOperations] at hok
    have hmask : DetermineReportingEntityUpdateMask rc
        { rc with connections := conns } = [] :=
      DREUM_empty rc _ rfl rfl (by simpa using hsub) (Finset.Subset.refl _)
    have hfor : entityOperationsFor current_model
        (Entity.reporting { rc with connections := conns }) =
        Except.ok [] := by
      rw [entityOperationsFor_reporting current_model
        { rc with connections := conns } rc hget]
      simp [hmask]
    exact aux_filter current_model updated_model.entities _ ops []
      hmem hnd hok hfor
  · intro current_model updated_model conns ops hnd hmem hget hsub hok
    rw [DetermineEntityOperations] at hok
    have hmask : DetermineVirtualEntityUpdateMask vc
        { vc with connections := conns } = Except.ok [] := by
      refine DVEUM_empty vc _ rfl rfl (by simpa using hsub) ?_
      by_cases hl : vc.links = []
      · exact Or.inr (Or.inl hl)
      · refine Or.inl ?_
        intro s hs
        rw [GetLinkScore_self vc.links hl] at hs
        obtain rfl : (1 : ℚ) = s := by simpa using hs
        norm_num
    have hfor : entityOperationsFor current_model
        (Entity.virtual { vc with connections := conns }) =
        Except.ok [] := by
      rw [entityOperationsFor_virtual current_model
        { vc with connections := conns } vc [] hget hmask]
      simp
    exact aux_filter current_model updated_model.entities _ ops []
      hmem hnd hok hfor

/-- C7 witness: an added connection flags CONNECTIONS on a reporting
pair. -/
theorem connections_additions_only_witness :
    EntityUpdateMaskAttribute.CONNECTIONS ∈
      DetermineReportingEntityUpdateMask repBase repConnAdd :=
  (connections_additions_only repBase repConnAdd virNoLinks virNoLinks).1.mpr
    ⟨connA, by simp [repConnAdd], by simp [repBase]⟩

end DigitalBuildings
